import Mathlib

/-!
Shallow embedding of `instruments.py` (LeMinaw/instruments.py).

The Python code computes embouchure and tone-hole positions of quena-type
flutes from empirical acoustic correction formulas.  Python floats are
modelled as real numbers; Python exceptions (`ZeroDivisionError` from `/`,
`ValueError` from `math.sqrt` of a negative argument, `IndexError` from the
constructor's length check) are modelled with an explicit `Except` monad.
Method overriding (`QuenaBody.emb_adj`, `Quena.end_pos`) is modelled by
giving each class its own function for the overridden slots and re-deriving
the inherited combinations (`emb_loc`) with the statically resolved slots.
-/

noncomputable section

namespace Instruments

/-- Source `SOUND_VEL = 345 * 10**3` (mm.s-1), from `instruments.py` line 6. -/
def SOUND_VEL : ℝ := 345 * 10 ^ 3

/-- Source `EPSILON = .00001`, from `instruments.py` line 7. -/
def EPSILON : ℝ := 0.00001

/-- Python exceptions that the modelled code can raise.
`geometry n` models the `ValueError` re-raised by `Quena.holes_pos` with a
message identifying hole `n`; `indexError` models the `IndexError` of
`Quena.__init__`; `fuelOut` is not a Python exception: the Python `while`
loop is unbounded, and `fuelOut` marks a truncated run of the model (every
`.ok` result of the model corresponds to an actual terminating Python run). -/
inductive Err
  | valueError
  | zeroDivisionError
  | geometry (n : ℕ)
  | indexError
  | fuelOut
deriving DecidableEq

/-- Python float division: raises `ZeroDivisionError` when the denominator
is zero, otherwise returns the quotient. -/
def pdiv (a b : ℝ) : Except Err ℝ :=
  if b = 0 then .error .zeroDivisionError else .ok (a / b)

/-- Python `math.sqrt`: raises `ValueError` on a negative argument. -/
def psqrt (x : ℝ) : Except Err ℝ :=
  if x < 0 then .error .valueError else .ok (Real.sqrt x)

/-- Source `class Pipe`: inner diameter and wall thickness (mm). -/
structure Pipe where
  diam : ℝ
  thick : ℝ

/-- Source `Pipe.end_adj`: `0.8 * self.diam`. -/
def Pipe.end_adj (p : Pipe) : ℝ := 0.8 * p.diam

/-- Source `class VibratingPipe`: a pipe, a target frequency (Hz) and an
embouchure diameter (mm). -/
structure VibratingPipe where
  pipe : Pipe
  freq : ℝ
  emb_diam : ℝ

/-- Source `VibratingPipe.theoric_length`: `SOUND_VEL / self.freq / 2`
(total real division; see `theoric_lengthE` for the division-error model). -/
def VibratingPipe.theoric_length (v : VibratingPipe) : ℝ :=
  SOUND_VEL / v.freq / 2

/-- Source `VibratingPipe.theoric_length` with Python's division-by-zero
behaviour made explicit: `SOUND_VEL / self.freq` raises
`ZeroDivisionError` when `self.freq == 0`; the final `/ 2` never fails. -/
def theoric_lengthE (v : VibratingPipe) : Except Err ℝ :=
  match pdiv SOUND_VEL v.freq with
  | .error e => .error e
  | .ok a => .ok (a / 2)

/-- Source `VibratingPipe.thick_emb`: `self.pipe.diam/2 + self.pipe.thick + 0.307*self.emb_diam`. -/
def VibratingPipe.thick_emb (v : VibratingPipe) : ℝ :=
  v.pipe.diam / 2 + v.pipe.thick + 0.307 * v.emb_diam

/-- Source `VibratingPipe.emb_adj`: `(self.pipe.diam / self.emb_diam)**2 * self.thick_emb()`. -/
def VibratingPipe.emb_adj (v : VibratingPipe) : ℝ :=
  (v.pipe.diam / v.emb_diam) ^ 2 * v.thick_emb

/-- Source `VibratingPipe.end_pos`: `self.theoric_length - self.pipe.end_adj()`. -/
def VibratingPipe.end_pos (v : VibratingPipe) : ℝ :=
  v.theoric_length - v.pipe.end_adj

/-- Source `VibratingPipe.emb_loc`: `self.end_pos() - self.emb_adj()`, with both
methods resolved in `VibratingPipe` (the binding used by `ClarinetBody`). -/
def VibratingPipe.emb_loc (v : VibratingPipe) : ℝ :=
  v.end_pos - v.emb_adj

/-- Source `QuenaBody.lips_coverage = 0.15`. -/
def QuenaBody.lips_coverage : ℝ := 0.15

/-- Source `QuenaBody.__init__`: `emb_diam = emb_size * sqrt(1 + PI/4)`, then the
`VibratingPipe` constructor. -/
def QuenaBody.make (pipe : Pipe) (freq emb_size : ℝ) : VibratingPipe :=
  ⟨pipe, freq, emb_size * Real.sqrt (1 + Real.pi / 4)⟩

/-- Source `QuenaBody.emb_adj` override: `super().emb_adj() * (1-self.lips_coverage)`. -/
def QuenaBody.emb_adj (v : VibratingPipe) : ℝ :=
  v.emb_adj * (1 - QuenaBody.lips_coverage)

/-- Source `VibratingPipe.emb_loc` as dispatched on a `QuenaBody` instance:
`end_pos` is inherited, `emb_adj` is the override. -/
def QuenaBody.emb_loc (v : VibratingPipe) : ℝ :=
  v.end_pos - QuenaBody.emb_adj v

/-- Source `ClarinetBody.__init__`: `emb_diam = pipe.diam`, no overrides. -/
def ClarinetBody.make (pipe : Pipe) (freq : ℝ) : VibratingPipe :=
  ⟨pipe, freq, pipe.diam⟩

/-- Source `class Quena` after construction: the normalized state stored by
`Quena.__init__` (sorted frequencies, aligned diameters, ring flag), plus
the inherited `VibratingPipe` fields. -/
structure Quena where
  pipe : Pipe
  freq : ℝ
  emb_diam : ℝ
  holes_freqs : List ℝ
  holes_diams : List ℝ
  ring : Bool

/-- Source `Quena.ring_offset = 23.58` (mm). -/
def Quena.ring_offset : ℝ := 23.58

/-- The inherited `VibratingPipe` view of a `Quena`. -/
def Quena.toVib (q : Quena) : VibratingPipe :=
  ⟨q.pipe, q.freq, q.emb_diam⟩

/-- Source `Quena.holes_nb`: `len(self.holes_freqs)`. -/
def Quena.holes_nb (q : Quena) : ℕ := q.holes_freqs.length

/-- Source `Quena.ring_adj`: `self.ring_offset if self.ring else 0`. -/
def Quena.ring_adj (q : Quena) : ℝ :=
  if q.ring then Quena.ring_offset else 0

/-- Source `Quena.closed_adj`: `free_thick * (self.holes_diams[n]/self.pipe.diam)**2`
with `free_thick = self.pipe.thick / 10`. -/
def Quena.closed_adj (q : Quena) (n : ℕ) : ℝ :=
  q.pipe.thick / 10 * (q.holes_diams.getD n 0 / q.pipe.diam) ^ 2

/-- Source `Quena.cum_closed_adj(a, b=None)`: `b = b or self.holes_nb` (so both
`None` and `0` fall back to `holes_nb`, Python truthiness), then
`sum(closed_adj(i) for i in range(a, b))`. -/
def Quena.cum_closed_adj (q : Quena) (a : ℕ) (bArg : Option ℕ) : ℝ :=
  let b := match bArg with
    | none => q.holes_nb
    | some b => if b = 0 then q.holes_nb else b
  ∑ i ∈ Finset.Ico a b, q.closed_adj i

/-- Source `Quena.end_pos` override:
`super().end_pos() - self.ring_adj() - self.cum_closed_adj(0)`. -/
def Quena.end_pos (q : Quena) : ℝ :=
  q.toVib.end_pos - q.ring_adj - q.cum_closed_adj 0 none

/-- Source `Quena.theoric_hole_pos`: `SOUND_VEL / self.holes_freqs[n] / 2`. -/
def Quena.theoric_hole_pos (q : Quena) (n : ℕ) : ℝ :=
  SOUND_VEL / q.holes_freqs.getD n 0 / 2

/-- Source `Quena.thick_hole`: `self.pipe.thick + 0.75*self.holes_diams[n]`. -/
def Quena.thick_hole (q : Quena) (n : ℕ) : ℝ :=
  q.pipe.thick + 0.75 * q.holes_diams.getD n 0

/-- Source `Quena.emb_adj` as dispatched on a `Quena` (inherited from `QuenaBody`). -/
def Quena.emb_adj (q : Quena) : ℝ := QuenaBody.emb_adj q.toVib

/-- Source `VibratingPipe.emb_loc` as dispatched on a `Quena`: the overridden
`Quena.end_pos` minus the `QuenaBody.emb_adj` override. -/
def Quena.emb_loc (q : Quena) : ℝ := q.end_pos - q.emb_adj

/-- Body of the `try:` block of `Quena.holes_pos` (lines 174-186): the
open-hole correction for hole `n` at current iterate `x`, where `prevPos`
is `self.end_pos()` for `n == 0` and `holes_pos[n-1]` otherwise.  Python
evaluation order is kept: each `/` may raise `ZeroDivisionError`, the
`sqrt` may raise `ValueError`. -/
def Quena.openAdjRaw (q : Quena) (n : ℕ) (prevPos x : ℝ) : Except Err ℝ :=
  if n = 0 then
    match pdiv (q.holes_diams.getD 0 0) q.pipe.diam with
    | .error e => .error e
    | .ok ratio =>
      let dist := prevPos - x
      match pdiv (q.thick_hole 0) dist with
      | .error e => .error e
      | .ok inner => pdiv (q.thick_hole 0) (ratio ^ 2 + inner)
  else
    match pdiv q.pipe.diam (q.holes_diams.getD n 0) with
    | .error e => .error e
    | .ok ratio =>
      let dist := prevPos - x
      match pdiv (q.thick_hole n) dist with
      | .error e => .error e
      | .ok frac =>
        match psqrt (1 + 4 * (frac * ratio ^ 2)) with
        | .error e => .error e
        | .ok s => .ok (dist / 2 * (s - 1))

/-- The `try/except ValueError` of `Quena.holes_pos` (lines 174-189): a
`ValueError` is re-raised as the geometry error naming hole `n`; any other
exception propagates unchanged. -/
def Quena.tryOpenAdj (q : Quena) (n : ℕ) (prevPos x : ℝ) : Except Err ℝ :=
  match q.openAdjRaw n prevPos x with
  | .error .valueError => .error (.geometry n)
  | r => r

/-- One pass of the `while` body of `Quena.holes_pos` (lines 171-193) for
hole `n` at iterate `x`: compute the open-hole correction, set
`holes_pos[n] = theoric_hole_pos(n) - open_adj`, and subtract
`cum_closed_adj(n+1)` unless `n` is the last hole. -/
def Quena.loopBody (q : Quena) (n : ℕ) (prevPos x : ℝ) : Except Err ℝ :=
  match q.tryOpenAdj n prevPos x with
  | .error e => .error e
  | .ok oa =>
    let p := q.theoric_hole_pos n - oa
    .ok (if n < q.holes_nb - 1 then p - q.cum_closed_adj (n + 1) none else p)

/-- The `while abs(holes_pos[n] - old_pos) > EPSILON` loop of
`Quena.holes_pos`, with explicit fuel (the Python loop is unbounded).
Returns the pair `(old_pos, holes_pos[n])` at loop exit. -/
def Quena.iterHole (q : Quena) (n : ℕ) (prevPos : ℝ) :
    ℕ → ℝ → ℝ → Except Err (ℝ × ℝ)
  | 0, _, _ => .error .fuelOut
  | fuel + 1, old, x =>
    if |x - old| > EPSILON then
      match q.loopBody n prevPos x with
      | .error e => .error e
      | .ok x' => q.iterHole n prevPos fuel x x'
    else .ok (old, x)

/-- The `for n in range(self.holes_nb)` loop of `Quena.holes_pos`:
`acc` is the list of already-finalized positions, so the current hole index
is `acc.length`; each hole starts from `holes_pos[n] = 0`, `old_pos = 1`. -/
def Quena.solveAux (q : Quena) (fuel : ℕ) : ℕ → List ℝ → Except Err (List ℝ)
  | 0, acc => .ok acc
  | r + 1, acc =>
    let n := acc.length
    let prevPos := if n = 0 then q.end_pos else acc.getD (n - 1) 0
    match q.iterHole n prevPos fuel 1 0 with
    | .error e => .error e
    | .ok (_, p) => q.solveAux fuel r (acc ++ [p])

/-- Source `Quena.holes_pos` (lines 163-195), with fuel bounding each `while` loop. -/
def Quena.holes_posE (q : Quena) (fuel : ℕ) : Except Err (List ℝ) :=
  q.solveAux fuel q.holes_nb []

/-- Python's lexicographic comparison of `(freq, diam)` pairs, as used by
`sorted(zip(holes_freqs, holes_diams))`. -/
def pairLe (p q : ℝ × ℝ) : Prop :=
  p.1 < q.1 ∨ (p.1 = q.1 ∧ p.2 ≤ q.2)

instance : DecidableRel pairLe := fun p q => by
  unfold pairLe; infer_instance

instance : IsTotal (ℝ × ℝ) pairLe where
  total p q := by
    rcases lt_trichotomy p.1 q.1 with h | h | h
    · exact Or.inl (Or.inl h)
    · rcases le_total p.2 q.2 with h2 | h2
      · exact Or.inl (Or.inr ⟨h, h2⟩)
      · exact Or.inr (Or.inr ⟨h.symm, h2⟩)
    · exact Or.inr (Or.inl h)

instance : IsTrans (ℝ × ℝ) pairLe where
  trans p q r hpq hqr := by
    rcases hpq with h | ⟨he, h2⟩
    · rcases hqr with h' | ⟨he', _⟩
      · exact Or.inl (h.trans h')
      · exact Or.inl (he' ▸ h)
    · rcases hqr with h' | ⟨he', h2'⟩
      · exact Or.inl (he ▸ h')
      · exact Or.inr ⟨he.trans he', h2.trans h2'⟩

/-- The `holes_diams` argument of `Quena.__init__`: Python accepts either
an iterable of diameters or a single number (the `iterable()` helper from
the repository's `utils` module distinguishes the two cases). -/
inductive HolesDiamsArg
  | scalar (d : ℝ)
  | ofList (ds : List ℝ)

/-- Source `Quena.__init__` (lines 105-125): stores the ring flag, sorts the hole
frequencies, and normalizes the diameters: an iterable must match
`holes_freqs` in length (`IndexError` otherwise) and is aligned to the
sorted frequencies via `[d for f, d in sorted(zip(holes_freqs, holes_diams))]`;
a scalar is broadcast with `[holes_diams] * len(holes_freqs)`. -/
def Quena.make (pipe : Pipe) (freq : ℝ) (holes_freqs : List ℝ)
    (emb_size : ℝ) (holes_diams : HolesDiamsArg) (ring : Bool) :
    Except Err Quena :=
  match holes_diams with
  | .ofList ds =>
    if ds.length ≠ holes_freqs.length then .error .indexError
    else .ok
      { pipe := pipe
        freq := freq
        emb_diam := emb_size * Real.sqrt (1 + Real.pi / 4)
        holes_freqs := holes_freqs.insertionSort (· ≤ ·)
        holes_diams := ((holes_freqs.zip ds).insertionSort pairLe).map Prod.snd
        ring := ring }
  | .scalar d => .ok
      { pipe := pipe
        freq := freq
        emb_diam := emb_size * Real.sqrt (1 + Real.pi / 4)
        holes_freqs := holes_freqs.insertionSort (· ≤ ·)
        holes_diams := List.replicate holes_freqs.length d
        ring := ring }

/-- Source `Quena.__init__` with the `holes_diams` parameter left at its Python
default value `5`. -/
def Quena.makeDefault (pipe : Pipe) (freq : ℝ) (holes_freqs : List ℝ)
    (emb_size : ℝ) (ring : Bool) : Except Err Quena :=
  Quena.make pipe freq holes_freqs emb_size (.scalar 5) ring

/-! ## Theorems -/

/-- C2: for every Quena, the overridden end position equals the base end
position (`theoric_length - 0.8 * diam`) minus the ring adjustment
(`23.58` mm if the ring flag is set, else `0`) minus the sum over all holes
`i in [0, holes_nb)` of `closed_adj i = (thick/10) * (holes_diams[i]/diam)^2`. -/
theorem quena_end_pos_formula (q : Quena) :
    q.end_pos = q.toVib.theoric_length - 0.8 * q.pipe.diam
      - (if q.ring then (23.58 : ℝ) else 0)
      - ∑ i ∈ Finset.range q.holes_nb,
          q.pipe.thick / 10 * (q.holes_diams.getD i 0 / q.pipe.diam) ^ 2 := by
  have h : q.cum_closed_adj 0 none
      = ∑ i ∈ Finset.range q.holes_nb,
          q.pipe.thick / 10 * (q.holes_diams.getD i 0 / q.pipe.diam) ^ 2 := by
    show (∑ i ∈ Finset.Ico 0 q.holes_nb, q.closed_adj i) = _
    rw [← Finset.range_eq_Ico]
    rfl
  show q.toVib.end_pos - q.ring_adj - q.cum_closed_adj 0 none = _
  rw [h]
  rfl

/-- C5: a lip-covered resonator built from embouchure opening size `s` has
embouchure diameter `s * sqrt(1 + π/4)`, and its embouchure correction is
the base correction `(diam/emb_diam)^2 * (diam/2 + thick + 0.307*emb_diam)`
multiplied by the lips-coverage factor `1 - 0.15`. -/
theorem quenabody_emb_formulas (pipe : Pipe) (freq s : ℝ) :
    (QuenaBody.make pipe freq s).emb_diam = s * Real.sqrt (1 + Real.pi / 4) ∧
    QuenaBody.emb_adj (QuenaBody.make pipe freq s) =
      (pipe.diam / (QuenaBody.make pipe freq s).emb_diam) ^ 2
        * (pipe.diam / 2 + pipe.thick + 0.307 * (QuenaBody.make pipe freq s).emb_diam)
        * (1 - 0.15) := by
  constructor
  · rfl
  · unfold QuenaBody.emb_adj VibratingPipe.emb_adj VibratingPipe.thick_emb
      QuenaBody.make QuenaBody.lips_coverage
    ring

/-- C7: constructing a Quena from a hole-diameter list whose length differs
from the hole-frequency list raises `IndexError` at construction (the
constructor never attempts any solving: `Quena.make` only normalizes the
input lists). -/
theorem quena_make_length_mismatch (pipe : Pipe) (freq : ℝ) (fs : List ℝ)
    (emb : ℝ) (ds : List ℝ) (ring : Bool) (h : ds.length ≠ fs.length) :
    Quena.make pipe freq fs emb (.ofList ds) ring = .error .indexError := by
  simp only [Quena.make]
  rw [if_pos h]

/-- C7 witness: a one-frequency, zero-diameter input is rejected. -/
theorem quena_make_length_mismatch_witness :
    Quena.make ⟨18, 3.5⟩ 440 [(440 : ℝ)] 9.5 (.ofList []) false
      = .error .indexError :=
  quena_make_length_mismatch ⟨18, 3.5⟩ 440 [(440 : ℝ)] 9.5 [] false (by simp)

/-- C10: a scalar hole-diameter argument is broadcast to every hole (the
stored list is `replicate fs.length d`, so it has the frequency list's
length and every element equal to the scalar) with no length validation
(the constructor succeeds), and the omitted-argument default gives every
hole diameter 5. -/
theorem quena_make_scalar_broadcast (pipe : Pipe) (freq : ℝ) (fs : List ℝ)
    (emb d : ℝ) (ring : Bool) :
    (∃ q, Quena.make pipe freq fs emb (.scalar d) ring = .ok q ∧
      q.holes_diams = List.replicate fs.length d ∧
      q.holes_diams.length = fs.length ∧
      ∀ x ∈ q.holes_diams, x = d) ∧
    (∃ q, Quena.makeDefault pipe freq fs emb ring = .ok q ∧
      q.holes_diams = List.replicate fs.length 5) := by
  refine ⟨⟨_, rfl, rfl, ?_, ?_⟩, ⟨_, rfl, rfl⟩⟩
  · simp
  · intro x hx
    exact List.eq_of_mem_replicate hx

/-- C8 counterexample: a negative target frequency is not reported as an
invalid-frequency error: `theoric_length` silently returns a negative
(physically meaningless) length. -/
theorem theoric_length_negative_freq_no_error :
    theoric_lengthE ⟨⟨18, 3.5⟩, -1, 18⟩ = .ok (-172500) := by
  unfold theoric_lengthE pdiv SOUND_VEL
  rw [if_neg (by norm_num : ¬((-1 : ℝ) = 0))]
  norm_num

/-- C8 amended: `theoric_length` returns `SOUND_VEL / (2 * freq)` for any
nonzero frequency (negative frequencies included, with no error), and at
frequency zero it raises a plain `ZeroDivisionError` — there is no
invalid-frequency validation anywhere. -/
theorem theoric_length_division (v : VibratingPipe) :
    (v.freq = 0 → theoric_lengthE v = .error .zeroDivisionError) ∧
    (v.freq ≠ 0 → theoric_lengthE v = .ok (SOUND_VEL / (2 * v.freq))) := by
  constructor
  · intro h
    unfold theoric_lengthE pdiv
    rw [if_pos h]
  · intro h
    unfold theoric_lengthE pdiv
    rw [if_neg h]
    show Except.ok (SOUND_VEL / v.freq / 2) = Except.ok (SOUND_VEL / (2 * v.freq))
    rw [div_div, mul_comm v.freq 2]

/-- C8 amended witness: at frequency 345 Hz the theoretical length is
returned; at frequency 0 the division error is raised. -/
theorem theoric_length_division_witness :
    theoric_lengthE ⟨⟨18, 3.5⟩, 345, 18⟩ = .ok (SOUND_VEL / (2 * 345)) ∧
    theoric_lengthE ⟨⟨18, 3.5⟩, 0, 18⟩ = .error .zeroDivisionError :=
  ⟨(theoric_length_division ⟨⟨18, 3.5⟩, 345, 18⟩).2 (by norm_num),
   (theoric_length_division ⟨⟨18, 3.5⟩, 0, 18⟩).1 rfl⟩

/-- C9: with the bore and target frequency fixed, a strictly larger
embouchure opening size gives a strictly smaller lip-covered embouchure
correction (for any sizes `0 < s₁ < s₂`, with the bore dimensions in their
data-model range `diam > 0`, `thick ≥ 0`). -/
theorem quenabody_emb_adj_strict_anti (pipe : Pipe) (freq s₁ s₂ : ℝ)
    (hd : 0 < pipe.diam) (ht : 0 ≤ pipe.thick) (h1 : 0 < s₁) (h12 : s₁ < s₂) :
    QuenaBody.emb_adj (QuenaBody.make pipe freq s₂)
      < QuenaBody.emb_adj (QuenaBody.make pipe freq s₁) := by
  have hc : 0 < Real.sqrt (1 + Real.pi / 4) := by
    rw [Real.sqrt_pos]
    positivity
  set c := Real.sqrt (1 + Real.pi / 4) with hcdef
  have he1 : 0 < s₁ * c := mul_pos h1 hc
  have he2 : s₁ * c < s₂ * c := by nlinarith
  have hb : 0 < s₂ * c := he1.trans he2
  have key : ∀ e : ℝ, 0 < e → QuenaBody.emb_adj ⟨pipe, freq, e⟩
      = pipe.diam ^ 2 * (pipe.diam / 2 + pipe.thick + 0.307 * e) * 0.85 / e ^ 2 := by
    intro e he
    unfold QuenaBody.emb_adj VibratingPipe.emb_adj VibratingPipe.thick_emb
      QuenaBody.lips_coverage
    field_simp
    ring
  show QuenaBody.emb_adj ⟨pipe, freq, s₂ * c⟩ < QuenaBody.emb_adj ⟨pipe, freq, s₁ * c⟩
  rw [key _ hb, key _ he1]
  rw [div_lt_div_iff₀ (by positivity) (by positivity)]
  nlinarith [mul_pos he1 hb, mul_pos (mul_pos hd hd) (mul_pos he1 hb),
    mul_pos (mul_pos hd hd) (mul_pos he1 (sub_pos.2 he2)),
    mul_pos (mul_pos hd hd) (mul_pos hb (sub_pos.2 he2))]

/-- C9 witness: for the reference bore 18/3.5, enlarging the embouchure
opening from 9 mm to 9.5 mm strictly decreases the correction. -/
theorem quenabody_emb_adj_strict_anti_witness :
    QuenaBody.emb_adj (QuenaBody.make ⟨18, 3.5⟩ 440 9.5)
      < QuenaBody.emb_adj (QuenaBody.make ⟨18, 3.5⟩ 440 9) :=
  quenabody_emb_adj_strict_anti ⟨18, 3.5⟩ 440 9 9.5 (by norm_num) (by norm_num)
    (by norm_num) (by norm_num)

/-- Auxiliary: sorting the frequencies alone agrees with taking the first
components of the lexicographically sorted `(freq, diam)` pairs (both are
sorted-by-`≤` permutations of `fs`, hence equal). -/
theorem insertionSort_fst_zip (fs ds : List ℝ) (h : ds.length = fs.length) :
    fs.insertionSort ((· ≤ ·) : ℝ → ℝ → Prop)
      = ((fs.zip ds).insertionSort pairLe).map Prod.fst := by
  have hfst : (fs.zip ds).map Prod.fst = fs :=
    List.map_fst_zip fs ds (le_of_eq h.symm)
  have p2 : (((fs.zip ds).insertionSort pairLe).map Prod.fst).Perm fs := by
    have hp := (List.perm_insertionSort pairLe (fs.zip ds)).map Prod.fst
    rw [hfst] at hp
    exact hp
  refine List.eq_of_perm_of_sorted
    ((List.perm_insertionSort _ _).trans p2.symm)
    (List.sorted_insertionSort _ _) ?_
  refine List.Pairwise.map Prod.fst (fun a b hab => ?_)
    (List.sorted_insertionSort pairLe (fs.zip ds))
  rcases hab with h' | ⟨h', _⟩
  · exact le_of_lt h'
  · exact le_of_eq h'

/-- C6: every constructed Quena stores its hole frequencies sorted
ascending, and when a diameter list is supplied the stored
`(frequency, diameter)` pairs are a permutation of the input pairs (so the
diameters are a permutation of the input aligned to the sorted frequency
order). -/
theorem quena_holes_sorted_aligned (pipe : Pipe) (freq : ℝ) (fs : List ℝ)
    (emb : ℝ) (arg : HolesDiamsArg) (ring : Bool) (q : Quena)
    (h : Quena.make pipe freq fs emb arg ring = .ok q) :
    q.holes_freqs.Sorted (· ≤ ·) ∧
    ∀ ds, arg = HolesDiamsArg.ofList ds →
      (q.holes_freqs.zip q.holes_diams).Perm (fs.zip ds) ∧
      q.holes_diams.Perm ds := by
  cases arg with
  | scalar d =>
    simp only [Quena.make, Except.ok.injEq] at h
    subst h
    refine ⟨List.sorted_insertionSort _ _, ?_⟩
    intro ds hds
    cases hds
  | ofList ds0 =>
    simp only [Quena.make] at h
    by_cases hlen : ds0.length ≠ fs.length
    · rw [if_pos hlen] at h
      cases h
    · rw [if_neg hlen] at h
      rw [not_not] at hlen
      simp only [Except.ok.injEq] at h
      subst h
      refine ⟨List.sorted_insertionSort _ _, ?_⟩
      intro ds hds
      injection hds with hds'
      subst hds'
      have hzip : (List.insertionSort ((· ≤ ·) : ℝ → ℝ → Prop) fs).zip
          (((fs.zip ds0).insertionSort pairLe).map Prod.snd)
          = (fs.zip ds0).insertionSort pairLe := by
        rw [insertionSort_fst_zip fs ds0 hlen, List.zip_map']
        simp
      constructor
      · show ((List.insertionSort ((· ≤ ·) : ℝ → ℝ → Prop) fs).zip
            (((fs.zip ds0).insertionSort pairLe).map Prod.snd)).Perm (fs.zip ds0)
        rw [hzip]
        exact List.perm_insertionSort pairLe (fs.zip ds0)
      · show (((fs.zip ds0).insertionSort pairLe).map Prod.snd).Perm ds0
        have hsnd : (fs.zip ds0).map Prod.snd = ds0 :=
          List.map_snd_zip fs ds0 (le_of_eq hlen)
        have hp := (List.perm_insertionSort pairLe (fs.zip ds0)).map Prod.snd
        rw [hsnd] at hp
        exact hp

/-- Concrete constructed Quena for the C6 witness: frequencies `[3, 1, 2]`
with diameters `[10, 20, 30]` normalize to `[1, 2, 3]` and `[20, 30, 10]`. -/
def qSortWitness : Quena :=
  ⟨⟨18, 3.5⟩, 440, 9.5 * Real.sqrt (1 + Real.pi / 4), [1, 2, 3], [20, 30, 10], false⟩

/-- C6 witness: the unsorted input `[3, 1, 2]` / `[10, 20, 30]` is stored
sorted with the diameters realigned. -/
theorem quena_holes_sorted_aligned_witness :
    qSortWitness.holes_freqs.Sorted (· ≤ ·) ∧
    ∀ ds, HolesDiamsArg.ofList [10, 20, 30] = HolesDiamsArg.ofList ds →
      (qSortWitness.holes_freqs.zip qSortWitness.holes_diams).Perm
        ([(3 : ℝ), 1, 2].zip ds) ∧
      qSortWitness.holes_diams.Perm ds :=
  quena_holes_sorted_aligned ⟨18, 3.5⟩ 440 [3, 1, 2] 9.5 (.ofList [10, 20, 30])
    false qSortWitness (by
      simp only [Quena.make]
      rw [if_neg (by norm_num)]
      simp only [Except.ok.injEq, qSortWitness, Quena.mk.injEq]
      norm_num [List.insertionSort, List.orderedInsert, pairLe])

/-- Auxiliary: `getD` reads inside the left part of an append. -/
theorem getD_append_of_lt (l t : List ℝ) (i : ℕ) (d : ℝ) (h : i < l.length) :
    (l ++ t).getD i d = l.getD i d := by
  induction l generalizing i with
  | nil => cases h
  | cons a l ih =>
    cases i with
    | zero => rfl
    | succ i => exact ih i (Nat.lt_of_succ_lt_succ h)

/-- Auxiliary: `getD` at the length of the left part of a one-element
append reads that element. -/
theorem getD_append_self (l : List ℝ) (p d : ℝ) :
    (l ++ [p]).getD l.length d = p := by
  induction l with
  | nil => rfl
  | cons a l ih => exact ih

/-- Auxiliary: any successful exit of the `while` loop satisfies the
convergence test, and unless the loop exited immediately the accepted
position is one application of the loop body to the prior iterate. -/
theorem iterHole_ok (q : Quena) (n : ℕ) (prevPos : ℝ) :
    ∀ fuel old x o p, q.iterHole n prevPos fuel old x = .ok (o, p) →
      |p - o| ≤ EPSILON ∧
        ((o = old ∧ p = x) ∨ q.loopBody n prevPos o = .ok p) := by
  intro fuel
  induction fuel with
  | zero => intro old x o p h; cases h
  | succ fuel ih =>
    intro old x o p h
    rw [Quena.iterHole] at h
    by_cases hc : |x - old| > EPSILON
    · rw [if_pos hc] at h
      rcases hb : q.loopBody n prevPos x with e | x'
      · rw [hb] at h; cases h
      · rw [hb] at h
        rcases ih x x' o p h with ⟨h1, h2 | h2⟩
        · refine ⟨h1, Or.inr ?_⟩
          rw [h2.1, h2.2]
          exact hb
        · exact ⟨h1, Or.inr h2⟩
    · rw [if_neg hc] at h
      cases h
      exact ⟨le_of_not_lt hc, Or.inl ⟨rfl, rfl⟩⟩

/-- Auxiliary: specification of the hole-by-hole `for` loop of
`Quena.holes_pos`: a successful run extends the accumulator by one
converged, loop-body-generated position per remaining hole. -/
theorem solveAux_ok (q : Quena) (fuel : ℕ) :
    ∀ r acc ps, q.solveAux fuel r acc = .ok ps →
      (∃ t, acc ++ t = ps) ∧ ps.length = acc.length + r ∧
      ∀ m, acc.length ≤ m → m < acc.length + r →
        ∃ prev, q.iterHole m (if m = 0 then q.end_pos else ps.getD (m - 1) 0)
              fuel 1 0 = .ok (prev, ps.getD m 0) ∧
          |ps.getD m 0 - prev| ≤ EPSILON ∧
          q.loopBody m (if m = 0 then q.end_pos else ps.getD (m - 1) 0) prev
            = .ok (ps.getD m 0) := by
  intro r
  induction r with
  | zero =>
    intro acc ps h
    cases h
    exact ⟨⟨[], by simp⟩, by simp, fun m hm hm' => absurd hm' (by simp [Nat.not_lt.2 hm])⟩
  | succ r ih =>
    intro acc ps h
    rw [Quena.solveAux] at h
    rcases hi : q.iterHole acc.length
        (if acc.length = 0 then q.end_pos else acc.getD (acc.length - 1) 0)
        fuel 1 0 with e | op
    · rw [hi] at h; cases h
    · rcases op with ⟨o, p⟩
      rw [hi] at h
      rcases ih (acc ++ [p]) ps h with ⟨⟨t, ht⟩, hlen, hrest⟩
      have hpre : ∀ i, i < acc.length + 1 → ps.getD i 0 = (acc ++ [p]).getD i 0 := by
        intro i hilt
        rw [← ht]
        exact getD_append_of_lt (acc ++ [p]) t i 0 (by simp; omega)
      refine ⟨⟨[p] ++ t, by rw [← List.append_assoc, ht]⟩, by simp at hlen ⊢; omega, ?_⟩
      intro m hm hm'
      rcases Nat.lt_or_ge m (acc.length + 1) with hcase | hcase
      · have hmeq : m = acc.length := by omega
        rw [← hmeq] at hi
        have hps : ps.getD m 0 = p := by
          rw [hpre m (by omega), hmeq]
          exact getD_append_self acc p 0
        have hprev : (if m = 0 then q.end_pos else ps.getD (m - 1) 0)
            = (if m = 0 then q.end_pos else acc.getD (m - 1) 0) := by
          by_cases hm0 : m = 0
          · rw [if_pos hm0, if_pos hm0]
          · rw [if_neg hm0, if_neg hm0, hpre (m - 1) (by omega),
              getD_append_of_lt acc [p] (m - 1) 0 (by omega)]
        rcases iterHole_ok q m (if m = 0 then q.end_pos else acc.getD (m - 1) 0)
            fuel 1 0 o p hi with ⟨hconv, hstep | hstep⟩
        · exfalso
          rw [hstep.1, hstep.2] at hconv
          rw [show |(0 : ℝ) - 1| = 1 by norm_num] at hconv
          exact absurd (hconv.trans_lt (by norm_num [EPSILON])) (lt_irrefl _)
        · refine ⟨o, ?_, ?_, ?_⟩
          · rw [hprev, hps]
            exact hi
          · rw [hps]
            exact hconv
          · rw [hprev, hps]
            exact hstep
      · have := hrest m (by simp; omega) (by simp at hlen ⊢; omega)
        exact this

/-- C1: whenever `Quena.holes_pos` returns successfully, it has produced
one position per hole, and each position was computed by the fixed-point
iteration of the source: starting from `holes_pos[n] = 0`, `old_pos = 1`,
repeatedly applying the loop body (open-hole correction — for `n = 0` with
`ratio = holes_diams[0]/diam` and `dist = end_pos() - pos`, `open_adj =
thick_hole(0)/(ratio^2 + thick_hole(0)/dist)`; for `n > 0` with `ratio =
diam/holes_diams[n]` and `dist = pos[n-1] - pos`, `open_adj = dist/2 *
(sqrt(1 + 4*(thick_hole(n)/dist*ratio^2)) - 1)` — then `pos =
theoric_hole_pos(n) - open_adj`, minus `cum_closed_adj(n+1)` unless `n` is
last: all encoded in `Quena.loopBody`) while `|pos - old_pos| > EPSILON`;
the accepted position is the loop body's value at the prior iterate `prev`
and differs from `prev` by at most `EPSILON`. -/
theorem quena_holes_pos_fixed_point (q : Quena) (fuel : ℕ) (ps : List ℝ)
    (h : q.holes_posE fuel = .ok ps) :
    ps.length = q.holes_nb ∧
    ∀ n, n < q.holes_nb →
      ∃ prev, q.iterHole n (if n = 0 then q.end_pos else ps.getD (n - 1) 0)
            fuel 1 0 = .ok (prev, ps.getD n 0) ∧
        |ps.getD n 0 - prev| ≤ EPSILON ∧
        q.loopBody n (if n = 0 then q.end_pos else ps.getD (n - 1) 0) prev
          = .ok (ps.getD n 0) := by
  rcases solveAux_ok q fuel q.holes_nb [] ps h with ⟨_, hlen, hrest⟩
  refine ⟨by simpa using hlen, fun n hn => ?_⟩
  exact hrest n (by simp) (by simpa using hn)

/-- Concrete one-hole Quena for the C1 witness.  Its numbers are chosen so
the fixed-point iteration converges exactly (the first loop-body value is
already the fixed point `0`): `end_pos = 491.8`, and the hole frequency
makes `theoric_hole_pos 0` equal the open-hole correction at position 0. -/
def qC1 : Quena := ⟨⟨10, 2⟩, 345, 12, [864742500 / 46721], [10], false⟩

/-- Auxiliary: the solver run for `qC1` terminates with the position list
`[0]` (two loop passes: one body application, one convergence check). -/
theorem qC1_holes_posE : qC1.holes_posE 2 = .ok [0] := by
  have hE : qC1.end_pos = 491.8 := by
    unfold Quena.end_pos Quena.toVib VibratingPipe.end_pos
      VibratingPipe.theoric_length Quena.ring_adj Quena.cum_closed_adj
      Quena.closed_adj Quena.holes_nb Pipe.end_adj SOUND_VEL qC1
    norm_num [Finset.sum_Ico_eq_sum_range]
  have hloop : qC1.loopBody 0 (491.8 : ℝ) 0 = .ok 0 := by
    norm_num [Quena.loopBody, Quena.tryOpenAdj, Quena.openAdjRaw, pdiv,
      Quena.thick_hole, Quena.theoric_hole_pos, Quena.holes_nb,
      SOUND_VEL, qC1]
  have habs1 : |(0 : ℝ) - 1| > EPSILON := by
    rw [show (0 : ℝ) - 1 = -1 by norm_num, abs_neg, abs_one]
    norm_num [EPSILON]
  have habs2 : ¬(|(0 : ℝ) - 0| > EPSILON) := by
    rw [sub_self, abs_zero]
    norm_num [EPSILON]
  have hiter : qC1.iterHole 0 (491.8 : ℝ) 2 1 0 = .ok (0, 0) := by
    have e2 : qC1.iterHole 0 (491.8 : ℝ) 2 1 0
        = if |(0 : ℝ) - 1| > EPSILON then
            match qC1.loopBody 0 (491.8 : ℝ) 0 with
            | .error e => .error e
            | .ok x' => qC1.iterHole 0 (491.8 : ℝ) 1 0 x'
          else .ok (1, 0) := rfl
    rw [e2, if_pos habs1, hloop]
    show qC1.iterHole 0 (491.8 : ℝ) 1 0 0 = .ok (0, 0)
    have e3 : qC1.iterHole 0 (491.8 : ℝ) 1 0 0
        = if |(0 : ℝ) - 0| > EPSILON then
            match qC1.loopBody 0 (491.8 : ℝ) 0 with
            | .error e => .error e
            | .ok x' => qC1.iterHole 0 (491.8 : ℝ) 0 0 x'
          else .ok (0, 0) := rfl
    rw [e3, if_neg habs2]
  have e1 : qC1.holes_posE 2
      = match qC1.iterHole 0 qC1.end_pos 2 1 0 with
        | .error e => .error e
        | .ok (_, p) => qC1.solveAux 2 0 ([] ++ [p]) := rfl
  rw [e1, hE, hiter]
  rfl

/-- C1 witness: for the concrete one-hole Quena `qC1` the solver succeeds
with `[0]`, and the fixed-point characterization holds there. -/
theorem quena_holes_pos_fixed_point_witness :
    ([(0 : ℝ)] : List ℝ).length = qC1.holes_nb ∧
    ∀ n, n < qC1.holes_nb →
      ∃ prev, qC1.iterHole n
            (if n = 0 then qC1.end_pos else ([(0 : ℝ)] : List ℝ).getD (n - 1) 0)
            2 1 0 = .ok (prev, ([(0 : ℝ)] : List ℝ).getD n 0) ∧
        |([(0 : ℝ)] : List ℝ).getD n 0 - prev| ≤ EPSILON ∧
        qC1.loopBody n
            (if n = 0 then qC1.end_pos else ([(0 : ℝ)] : List ℝ).getD (n - 1) 0)
            prev = .ok (([(0 : ℝ)] : List ℝ).getD n 0) :=
  quena_holes_pos_fixed_point qC1 2 [0] qC1_holes_posE

/-- Concrete Quena whose first-hole distance is exactly zero on the first
iteration: `end_pos = 0` (theoretical length 8 mm cancels the end
correction; wall thickness 0 kills the closed-hole sum), so
`dist = end_pos() - holes_pos[0] = 0`. -/
def qZeroDist : Quena := ⟨⟨10, 0⟩, 21562.5, 12, [100], [4], false⟩

/-- C4 counterexample: a non-positive (here zero) distance does not
produce the geometry-infeasible error: the division
`thick_hole(0) / dist` raises a plain `ZeroDivisionError`, which the
`except ValueError` clause does not catch, so no hole index is reported. -/
theorem quena_geometry_error_counterexample :
    qZeroDist.end_pos - 0 = 0 ∧
    qZeroDist.holes_posE 2 = .error Err.zeroDivisionError := by
  have hE : qZeroDist.end_pos = 0 := by
    unfold Quena.end_pos Quena.toVib VibratingPipe.end_pos
      VibratingPipe.theoric_length Quena.ring_adj Quena.cum_closed_adj
      Quena.closed_adj Quena.holes_nb Pipe.end_adj SOUND_VEL qZeroDist
    norm_num [Finset.sum_Ico_eq_sum_range]
  refine ⟨by rw [hE, sub_zero], ?_⟩
  have hloop : qZeroDist.loopBody 0 (0 : ℝ) 0 = .error Err.zeroDivisionError := by
    norm_num [Quena.loopBody, Quena.tryOpenAdj, Quena.openAdjRaw, pdiv,
      Quena.thick_hole, qZeroDist]
  have habs1 : |(0 : ℝ) - 1| > EPSILON := by
    rw [show (0 : ℝ) - 1 = -1 by norm_num, abs_neg, abs_one]
    norm_num [EPSILON]
  have hiter : qZeroDist.iterHole 0 (0 : ℝ) 2 1 0 = .error Err.zeroDivisionError := by
    have e2 : qZeroDist.iterHole 0 (0 : ℝ) 2 1 0
        = if |(0 : ℝ) - 1| > EPSILON then
            match qZeroDist.loopBody 0 (0 : ℝ) 0 with
            | .error e => .error e
            | .ok x' => qZeroDist.iterHole 0 (0 : ℝ) 1 0 x'
          else .ok (1, 0) := rfl
    rw [e2, if_pos habs1, hloop]
  have e1 : qZeroDist.holes_posE 2
      = match qZeroDist.iterHole 0 qZeroDist.end_pos 2 1 0 with
        | .error e => .error e
        | .ok (_, p) => qZeroDist.solveAux 2 0 ([] ++ [p]) := rfl
  rw [e1, hE, hiter]

/-- C4 amended: only a `ValueError` — i.e. a negative radicand in the
`sqrt` of the open-hole correction for a hole `n > 0` — is re-raised as a
geometry-infeasible error naming the offending hole `n` (with no clamping).
A zero distance instead surfaces as an unindexed `ZeroDivisionError` (see
the counterexample), and a negative distance whose radicand stays
nonnegative raises nothing at all. -/
theorem quena_tryOpenAdj_negative_radicand (q : Quena) (n : ℕ) (prevPos x : ℝ)
    (hn : ¬n = 0) (hdn : ¬q.holes_diams.getD n 0 = 0)
    (hdist : ¬prevPos - x = 0)
    (hrad : 1 + 4 * (q.thick_hole n / (prevPos - x)
        * (q.pipe.diam / q.holes_diams.getD n 0) ^ 2) < 0) :
    q.tryOpenAdj n prevPos x = .error (.geometry n) := by
  simp only [Quena.tryOpenAdj, Quena.openAdjRaw, pdiv, psqrt,
    if_neg hn, if_neg hdn, if_neg hdist, if_pos hrad]

/-- Concrete second-hole geometry for the C4-amended witness: hole 1 of
diameter 1 in a bore of diameter 10 at distance `-1` gives the radicand
`1 + 4 * (1.75 / (-1) * 100) = -699 < 0`. -/
def qNegRad : Quena := ⟨⟨10, 1⟩, 440, 12, [100, 200], [2, 1], false⟩

/-- C4 amended witness: the negative radicand at hole 1 of `qNegRad` is
reported as the geometry error naming hole 1. -/
theorem quena_tryOpenAdj_negative_radicand_witness :
    qNegRad.tryOpenAdj 1 0 1 = .error (.geometry 1) :=
  quena_tryOpenAdj_negative_radicand qNegRad 1 0 1 (by norm_num)
    (by norm_num [qNegRad])
    (by norm_num)
    (by norm_num [qNegRad, Quena.thick_hole])

/-- C3 counterexample: with the direct-bore (clarinet-style) embouchure the
computed embouchure location at 317.66 Hz is about 510.6 mm, which is NOT
within 1% of the reference measurement 499 mm (the reference values belong
to the lip-covered embouchure of size 9.5, see the amended theorem). -/
theorem clarinet_emb_loc_counterexample :
    0.01 * 499 < |VibratingPipe.emb_loc (ClarinetBody.make ⟨18, 3.5⟩ 317.66) - 499| := by
  unfold VibratingPipe.emb_loc VibratingPipe.end_pos VibratingPipe.theoric_length
    VibratingPipe.emb_adj VibratingPipe.thick_emb Pipe.end_adj ClarinetBody.make SOUND_VEL
  rw [abs_of_nonneg (by norm_num)]
  norm_num

/-- C3 amended: for the bore of inner diameter 18 mm and wall thickness
3.5 mm the reference measurements hold for the lip-covered (quena-style)
embouchure with opening size 9.5 mm — the configuration the repository's
tests use: the embouchure location is within 1% of 499 mm at 317.66 Hz and
within 1% of 361.5 mm at 426.58 Hz (the direct-bore embouchure misses the
first tolerance, see the counterexample). -/
theorem quenabody_emb_loc_reference_measurements :
    |QuenaBody.emb_loc (QuenaBody.make ⟨18, 3.5⟩ 317.66 9.5) - 499| ≤ 0.01 * 499 ∧
    |QuenaBody.emb_loc (QuenaBody.make ⟨18, 3.5⟩ 426.58 9.5) - 361.5| ≤ 0.01 * 361.5 := by
  have hπl := Real.pi_gt_d6
  have hπu := Real.pi_lt_d6
  have hcl : (1.3361 : ℝ) ≤ Real.sqrt (1 + Real.pi / 4) := by
    rw [show (1.3361 : ℝ) = Real.sqrt (1.3361 ^ 2) from (Real.sqrt_sq (by norm_num)).symm]
    exact Real.sqrt_le_sqrt (by nlinarith)
  have hcu : Real.sqrt (1 + Real.pi / 4) ≤ 1.3362 := by
    rw [show (1.3362 : ℝ) = Real.sqrt (1.3362 ^ 2) from (Real.sqrt_sq (by norm_num)).symm]
    exact Real.sqrt_le_sqrt (by nlinarith)
  set c := Real.sqrt (1 + Real.pi / 4) with hc
  have he1 : (12.69 : ℝ) ≤ 9.5 * c := by nlinarith
  have he2 : (9.5 : ℝ) * c ≤ 12.70 := by nlinarith
  have he0 : (0 : ℝ) < 9.5 * c := by nlinarith
  have hadj : ∀ f : ℝ, 27.9 ≤ QuenaBody.emb_adj (QuenaBody.make ⟨18, 3.5⟩ f 9.5) ∧
      QuenaBody.emb_adj (QuenaBody.make ⟨18, 3.5⟩ f 9.5) ≤ 28.1 := by
    intro f
    show 27.9 ≤ ((18 : ℝ) / (9.5 * c)) ^ 2 * (18 / 2 + 3.5 + 0.307 * (9.5 * c)) * (1 - 0.15) ∧
      ((18 : ℝ) / (9.5 * c)) ^ 2 * (18 / 2 + 3.5 + 0.307 * (9.5 * c)) * (1 - 0.15) ≤ 28.1
    have hrw : ((18 : ℝ) / (9.5 * c)) ^ 2 * (18 / 2 + 3.5 + 0.307 * (9.5 * c)) * (1 - 0.15)
        = 324 * (12.5 + 0.307 * (9.5 * c)) * 0.85 / (9.5 * c) ^ 2 := by
      field_simp
      ring
    rw [hrw]
    have hu : (0 : ℝ) ≤ (12.70 - 9.5 * c) * (9.5 * c - 12.69) :=
      mul_nonneg (by linarith) (by linarith)
    constructor
    · rw [le_div_iff₀ (by positivity)]
      nlinarith
    · rw [div_le_iff₀ (by positivity)]
      nlinarith
  have hend : ∀ f : ℝ, (QuenaBody.make ⟨18, 3.5⟩ f 9.5).end_pos
      = 345 * 10 ^ 3 / f / 2 - 14.4 := by
    intro f
    show 345 * 10 ^ 3 / f / 2 - 0.8 * 18 = _
    norm_num
  constructor
  · have h1 := (hadj 317.66).1
    have h2 := (hadj 317.66).2
    rw [show QuenaBody.emb_loc (QuenaBody.make ⟨18, 3.5⟩ 317.66 9.5)
        = (QuenaBody.make ⟨18, 3.5⟩ 317.66 9.5).end_pos
          - QuenaBody.emb_adj (QuenaBody.make ⟨18, 3.5⟩ 317.66 9.5) from rfl,
      hend 317.66, abs_le]
    have hT1 : (543.033 : ℝ) ≤ 345 * 10 ^ 3 / 317.66 / 2 := by norm_num
    have hT2 : (345 : ℝ) * 10 ^ 3 / 317.66 / 2 ≤ 543.034 := by norm_num
    constructor <;> linarith
  · have h1 := (hadj 426.58).1
    have h2 := (hadj 426.58).2
    rw [show QuenaBody.emb_loc (QuenaBody.make ⟨18, 3.5⟩ 426.58 9.5)
        = (QuenaBody.make ⟨18, 3.5⟩ 426.58 9.5).end_pos
          - QuenaBody.emb_adj (QuenaBody.make ⟨18, 3.5⟩ 426.58 9.5) from rfl,
      hend 426.58, abs_le]
    have hT1 : (404.379 : ℝ) ≤ 345 * 10 ^ 3 / 426.58 / 2 := by norm_num
    have hT2 : (345 : ℝ) * 10 ^ 3 / 426.58 / 2 ≤ 404.380 := by norm_num
    constructor <;> linarith

end Instruments

end
